import Mathlib

/-!
Verification of the libsyncast navigation/selection state machine and its
configuration loading, against a shallow embedding of the Rust sources
`src/libsyncast/src/main.rs` and `src/libsyncast/src/gui.rs`.

Conventions of the embedding:
* Rust `usize` arithmetic is modelled over `Nat`.  The unchecked
  subtraction `len() - 1` in `main.rs` is a program error on `len() = 0`
  (a panic in debug builds, a wrap to `usize::MAX` in release builds), so
  the `main.rs` event handler is embedded as a function into `Option`:
  `none` marks the underflowing evaluation.  The `gui.rs` handler uses
  `saturating_sub(1)`, which is exactly `Nat` subtraction, and is total.
* Persistence (`save_to_favorites`) is modelled by returning the list of
  `(title, url)` pairs the handler asks the store to append.
* Strings are Lean `String`s; the config parser works on the underlying
  `List Char` through `String.data`.
-/

/-- A named folder holding an ordered list of feed URLs.
Embeds `struct Folder` of `main.rs`. -/
structure Folder where
  name : String
  feeds : List String
deriving DecidableEq, Repr

/-- One play-history entry. Embeds `struct HistoryItem` of `main.rs`. -/
structure HistoryItem where
  title : String
  url : String
deriving DecidableEq, Repr

/-- One favorites entry. Embeds `struct FavoriteItem` of `main.rs`. -/
structure FavoriteItem where
  title : String
  url : String
deriving DecidableEq, Repr

/-- The whole mutable application state. Embeds `struct AppState` of
`main.rs` field by field. -/
structure AppState where
  folders : List Folder
  selected_folder : Nat
  history : List HistoryItem
  favorites : List FavoriteItem
  show_history : Bool
  show_favorites : Bool
  selected_favorite : Nat
deriving DecidableEq, Repr

/-- The key events the two handlers distinguish: `j`/Down, `k`/Up, `h`,
`F`, `f`, `q`, Tab, and anything else. -/
inductive Key where
  | keyJ
  | keyDown
  | keyK
  | keyUp
  | keyH
  | keyFCap
  | keyFLow
  | keyQ
  | tab
  | other
deriving DecidableEq, Repr

/-- The key-event handler of `main.rs` (the inline `match key.code` in the
main loop, lines 136-178).  Returns `none` when the Rust code evaluates
`len() - 1` on an empty list (underflow of unsigned subtraction);
otherwise returns the updated state together with the list of
`(title, url)` pairs passed to `save_to_favorites`. -/
def mainStep (s : AppState) : Key → Option (AppState × List (String × String))
  | .keyJ | .keyDown =>
    if s.show_favorites then
      match s.favorites.length with
      | 0 => none
      | Nat.succ m =>
        if s.selected_favorite < m then
          some ({ s with selected_favorite := s.selected_favorite + 1 }, [])
        else some (s, [])
    else if s.show_history then some (s, [])
    else
      match s.folders.length with
      | 0 => none
      | Nat.succ m =>
        if s.selected_folder < m then
          some ({ s with selected_folder := s.selected_folder + 1 }, [])
        else some (s, [])
  | .keyK | .keyUp =>
    if s.show_favorites then
      if s.selected_favorite > 0 then
        some ({ s with selected_favorite := s.selected_favorite - 1 }, [])
      else some (s, [])
    else if s.show_history then some (s, [])
    else if s.selected_folder > 0 then
      some ({ s with selected_folder := s.selected_folder - 1 }, [])
    else some (s, [])
  | .keyH =>
    some ({ s with show_history := !s.show_history, show_favorites := false }, [])
  | .keyFCap =>
    some ({ s with show_favorites := !s.show_favorites, show_history := false }, [])
  | .keyFLow =>
    if s.show_history then
      match s.history[s.selected_folder]? with
      | some item =>
        some ({ s with favorites := s.favorites ++ [⟨item.title, item.url⟩] },
          [(item.title, item.url)])
      | none => some (s, [])
    else some (s, [])
  | .keyQ => some (s, [])
  | .tab => some (s, [])
  | .other => some (s, [])

/-- The key-event handler of `gui.rs` (`UI::handle_events`, lines
312-370), state-update part.  `saturating_sub(1)` is `Nat` subtraction,
so this handler is total.  The `f` and `q` arms do not change the state
(they only return a signal to the caller). -/
def guiStep (s : AppState) : Key → AppState
  | .keyJ | .keyDown =>
    if s.show_favorites then
      if s.selected_favorite < s.favorites.length - 1 then
        { s with selected_favorite := s.selected_favorite + 1 }
      else s
    else if s.show_history then s
    else if s.selected_folder < s.folders.length - 1 then
      { s with selected_folder := s.selected_folder + 1 }
    else s
  | .keyK | .keyUp =>
    if s.show_favorites then
      if s.selected_favorite > 0 then
        { s with selected_favorite := s.selected_favorite - 1 }
      else s
    else if s.show_history then s
    else if s.selected_folder > 0 then
      { s with selected_folder := s.selected_folder - 1 }
    else s
  | .tab =>
    if !s.show_history && !s.show_favorites then
      { s with show_history := true }
    else if s.show_history then
      { s with show_history := false, show_favorites := true }
    else
      { s with show_favorites := false }
  | .keyH =>
    { s with show_history := !s.show_history, show_favorites := false }
  | .keyFCap =>
    { s with show_favorites := !s.show_favorites, show_history := false }
  | .keyFLow => s
  | .keyQ => s
  | .other => s

/-- Iterate the `gui.rs` handler over a list of key events. -/
def guiRun (s : AppState) (ks : List Key) : AppState :=
  ks.foldl guiStep s

/-- `line.ends_with(':')` of `main.rs`, on the underlying character
list. -/
def endsWithColon (s : String) : Bool :=
  s.data.getLast? == some ':'

/-- `line.trim_end_matches(':')` of `main.rs`: strips every trailing
`':'`. -/
def trimColons (s : String) : String :=
  ⟨(s.data.reverse.dropWhile (fun c => c == ':')).reverse⟩

/-- `line.trim().is_empty()` of `main.rs`: the line holds only
whitespace. -/
def isBlank (s : String) : Bool :=
  s.data.all Char.isWhitespace

/-- One iteration of the `for line in reader.lines()` loop of
`load_folders_conf` (`main.rs` lines 203-218), over the accumulator
(folders so far, current folder). -/
def confStep (acc : List Folder × Option Folder) (line : String) :
    List Folder × Option Folder :=
  if endsWithColon line then
    match acc.2 with
    | some f => (acc.1 ++ [f], some ⟨trimColons line, []⟩)
    | none => (acc.1, some ⟨trimColons line, []⟩)
  else
    match acc.2 with
    | some f =>
      if isBlank line then (acc.1, some f)
      else (acc.1, some { f with feeds := f.feeds ++ [line] })
    | none => acc

/-- `load_folders_conf` of `main.rs` (lines 189-224) applied to the lines
of the backing file: the loop over the lines followed by the final flush
of the pending folder. -/
def loadFoldersConf (lines : List String) : List Folder :=
  match lines.foldl confStep ([], none) with
  | (fs, some f) => fs ++ [f]
  | (fs, none) => fs

/-- A selection/scroll pair for one view, as described by the spec's
NavigationState. -/
structure ScrollView where
  sel : Nat
  off : Nat
deriving DecidableEq, Repr

/-- A MoveDown or MoveUp event. -/
inductive MoveEv where
  | down
  | up
deriving DecidableEq, Repr

/-- Modelled from the spec: no `scroll_offset` exists anywhere under
`src/`, so the MoveDown/MoveUp rule of spec section 4.3 is embedded from
its words: the selection increments/decrements clamped to
`[0, length-1]` (no-op at either boundary), and afterwards, if the new
selection falls outside `[off, off + h - 1]`, the offset moves by
exactly one in the direction the selection moved. -/
def scrollStep (len h : Nat) (st : ScrollView) : MoveEv → ScrollView
  | .down =>
    let sel2 := if st.sel + 1 < len then st.sel + 1 else st.sel
    let off2 := if st.off + h - 1 < sel2 then st.off + 1 else st.off
    ⟨sel2, off2⟩
  | .up =>
    let sel2 := st.sel - 1
    let off2 := if sel2 < st.off then st.off - 1 else st.off
    ⟨sel2, off2⟩

/-- Run a sequence of move events from the initial `(0, 0)` pair over a
list of the given length and a window of the given height. -/
def runScroll (len h : Nat) (evs : List MoveEv) : ScrollView :=
  evs.foldl (scrollStep len h) ⟨0, 0⟩

/-- The inductive invariant of the scroll machine: an empty list pins
both components to 0; otherwise the selection is in range and inside the
window; a list that fits in the window never scrolls. -/
def ScrollInv (len h : Nat) (st : ScrollView) : Prop :=
  (len = 0 → st.sel = 0 ∧ st.off = 0) ∧
  (0 < len → st.sel < len ∧ st.off ≤ st.sel ∧ st.sel < st.off + h) ∧
  (len ≤ h → st.off = 0)

/-- An episode parsed out of a feed, as the spec's data model describes
it. -/
structure Episode where
  title : String
  media_url : String
  description : String
deriving DecidableEq, Repr

/-- The reasons a single feed retrieval fails, per spec section 4.2. -/
inductive FetchError where
  | network
  | badStatus (code : Nat)
  | parseFail
deriving DecidableEq, Repr

/-- A fetched feed: its URL and its ordered episode list, per the spec's
data model. -/
structure Feed where
  url : String
  episodes : List Episode
deriving DecidableEq, Repr

/-- The episode list a single `fetch` outcome contributes: the parsed
episodes on success, the empty list on failure. -/
def fetchEpisodes : Except FetchError Feed → List Episode
  | .ok fe => fe.episodes
  | .error _ => []

/-- Modelled from the spec: no fetch pipeline exists under `src/`.  The
per-folder half of `fetch_all` (spec section 4.2): call `fetch` once per
feed URL, in order; a failure contributes an empty episode list and a
diagnostic `(url, error)` instead of aborting. -/
def fetchFolderFeeds (fetch : String → Except FetchError Feed) :
    List String → List (String × List Episode) × List (String × FetchError)
  | [] => ([], [])
  | u :: us =>
    let rest := fetchFolderFeeds fetch us
    match fetch u with
    | .ok fe => ((u, fe.episodes) :: rest.1, rest.2)
    | .error e => ((u, []) :: rest.1, (u, e) :: rest.2)

/-- Modelled from the spec: `fetch_all(folders)` (spec section 4.2)
drives `fetch` over every feed URL of every folder, sequentially,
returning the folder/feed/episode tree and the accumulated non-fatal
diagnostics.  It is a total function: no per-feed failure escapes it. -/
def fetchAll (fetch : String → Except FetchError Feed) :
    List Folder → List (String × List (String × List Episode)) × List (String × FetchError)
  | [] => ([], [])
  | fo :: fos =>
    let here := fetchFolderFeeds fetch fo.feeds
    let rest := fetchAll fetch fos
    ((fo.name, here.1) :: rest.1, here.2 ++ rest.2)

/-- The selection invariant of the `gui.rs` handler: each selection index
is 0 on an empty list and strictly below the length on a non-empty one. -/
def GuiSelInv (s : AppState) : Prop :=
  (s.folders = [] → s.selected_folder = 0) ∧
  (s.folders ≠ [] → s.selected_folder < s.folders.length) ∧
  (s.favorites = [] → s.selected_favorite = 0) ∧
  (s.favorites ≠ [] → s.selected_favorite < s.favorites.length)

lemma guiStep_selInv (s : AppState) (k : Key) (h : GuiSelInv s) :
    GuiSelInv (guiStep s k) := by
  obtain ⟨h1, h2, h3, h4⟩ := h
  cases k <;> simp only [guiStep, GuiSelInv] <;> (try split_ifs) <;>
    refine ⟨?_, ?_, ?_, ?_⟩ <;> intro hl <;> simp_all <;> omega

lemma guiRun_selInv (s : AppState) (ks : List Key) (h : GuiSelInv s) :
    GuiSelInv (guiRun s ks) := by
  induction ks generalizing s with
  | nil => exact h
  | cons k ks ih => exact ih (guiStep s k) (guiStep_selInv s k h)

/-- C1: the claim says the navigation state machine never fails and that
MoveDown in the Favorites view with an empty Favorites list is a no-op.
Evaluating the `main.rs` handler there: it evaluates
`favorites.len() - 1` on the empty list, an unsigned underflow (panic in
debug builds, wrap to `usize::MAX` in release builds) — the embedding
returns `none`, not a no-op. -/
theorem mainStep_moveDown_empty_favorites_fails :
    mainStep ⟨[⟨"News", ["http://a.example/feed"]⟩], 0, [], [], false, true, 0⟩
      Key.keyJ = none := by decide

/-- C2: the claim adds that on an empty list the selected index stays 0.
The `main.rs` handler instead underflows on MoveDown over an empty
Folders list (first conjunct).  For the `gui.rs` handler the claim
holds: the selection invariant is preserved by every finite event
sequence (second conjunct), MoveUp at index 0 of the Favorites view is a
no-op (third conjunct) and MoveDown at the last Favorites index is a
no-op (fourth conjunct). -/
theorem selection_bounds_status :
    mainStep ⟨[], 0, [⟨"t", "u"⟩], [], false, false, 0⟩ Key.keyJ = none ∧
    (∀ (s : AppState) (ks : List Key), GuiSelInv s → GuiSelInv (guiRun s ks)) ∧
    (∀ s : AppState, s.show_favorites = true → s.selected_favorite = 0 →
      guiStep s Key.keyK = s) ∧
    (∀ s : AppState, s.show_favorites = true →
      s.selected_favorite = s.favorites.length - 1 → guiStep s Key.keyJ = s) := by
  refine ⟨by decide, fun s ks h => guiRun_selInv s ks h, ?_, ?_⟩
  · intro s hf h0
    simp [guiStep, hf, h0]
  · intro s hf hlast
    simp [guiStep, hf, hlast]

/-- Witness for C2's quantified conjuncts at concrete inputs. -/
theorem selection_bounds_status_witness :
    GuiSelInv ⟨[⟨"A", []⟩, ⟨"B", []⟩], 0, [], [⟨"t", "u"⟩], false, true, 0⟩ ∧
    GuiSelInv (guiRun ⟨[⟨"A", []⟩, ⟨"B", []⟩], 0, [], [⟨"t", "u"⟩], false, true, 0⟩
      [Key.keyJ, Key.keyJ, Key.keyK]) ∧
    guiStep ⟨[], 0, [], [⟨"t", "u"⟩], false, true, 0⟩ Key.keyK
      = ⟨[], 0, [], [⟨"t", "u"⟩], false, true, 0⟩ ∧
    guiStep ⟨[], 0, [], [⟨"t", "u"⟩, ⟨"s", "v"⟩], false, true, 1⟩ Key.keyJ
      = ⟨[], 0, [], [⟨"t", "u"⟩, ⟨"s", "v"⟩], false, true, 1⟩ := by
  refine ⟨?_, ?_, ?_, ?_⟩
  · unfold GuiSelInv; decide
  · exact selection_bounds_status.2.1 _ [Key.keyJ, Key.keyJ, Key.keyK]
      (by unfold GuiSelInv; decide)
  · exact selection_bounds_status.2.2.1 _ (by decide) (by decide)
  · exact selection_bounds_status.2.2.2 _ (by decide) (by decide)

/-- C3: the claim says PromoteToFavorite in the History view promotes
the item designated by the History view's own selection index.  The
`main.rs` handler instead indexes `history` with `selected_folder` (the
Folders view's index): here History is non-empty yet, with
`selected_folder = 1` past its end, the event is a silent no-op —
nothing is appended and nothing is persisted. -/
theorem promote_uses_folder_index :
    mainStep ⟨[⟨"A", []⟩, ⟨"B", []⟩], 1, [⟨"t0", "u0"⟩], [], true, false, 0⟩
      Key.keyFLow
      = some (⟨[⟨"A", []⟩, ⟨"B", []⟩], 1, [⟨"t0", "u0"⟩], [], true, false, 0⟩, []) := by
  decide

/-- Which of the three implemented views is shown, in the priority order
the renderer uses (`show_favorites` checked before `show_history`). -/
inductive View where
  | foldersView
  | historyView
  | favoritesView
deriving DecidableEq, Repr

/-- The view an `AppState` displays (render dispatch of `main.rs` lines
85-131 and `gui.rs` lines 79-85). -/
def viewOf (s : AppState) : View :=
  if s.show_favorites then .favoritesView
  else if s.show_history then .historyView
  else .foldersView

/-- The successor in the Tab cycle that `gui.rs` implements (comment and
branches of `UI::handle_events`, lines 336-349). -/
def nextView : View → View
  | .foldersView => .historyView
  | .historyView => .favoritesView
  | .favoritesView => .foldersView

/-- C4 counterexample: from the Folders view, the Tab arm of
`UI::handle_events` sets `show_history`, so the History view IS entered
via the Tab cycle — the claimed order Folders → Episodes → Favorites
(History never via Tab) is false on the code. -/
theorem tab_enters_history :
    guiStep ⟨[⟨"d", ["u"]⟩], 0, [], [], false, false, 0⟩ Key.tab
      = ⟨[⟨"d", ["u"]⟩], 0, [], [], true, false, 0⟩ := by decide

/-- C4 amended: the Tab key cycles the views in the order
Folders → History → Favorites → Folders (there is no Episodes view), for
every state in which the two view flags are not both set; `h` and `F`
remain dedicated toggles. -/
theorem tab_cycles_folders_history_favorites (s : AppState)
    (h : ¬(s.show_history = true ∧ s.show_favorites = true)) :
    viewOf (guiStep s Key.tab) = nextView (viewOf s) := by
  obtain ⟨fo, sf, hi, fa, sh, sfav, sel⟩ := s
  cases sh <;> cases sfav <;> simp_all [guiStep, viewOf, nextView]

/-- Witness for the amended C4 at a concrete state. -/
theorem tab_cycles_folders_history_favorites_witness :
    ¬((⟨[], 0, [], [], true, false, 0⟩ : AppState).show_history = true ∧
        (⟨[], 0, [], [], true, false, 0⟩ : AppState).show_favorites = true) ∧
    viewOf (guiStep ⟨[], 0, [], [], true, false, 0⟩ Key.tab)
      = nextView (viewOf ⟨[], 0, [], [], true, false, 0⟩) :=
  ⟨by decide, tab_cycles_folders_history_favorites _ (by decide)⟩

/-- C6: every view-switch event (`h`, `F` in both handlers; Tab in
`gui.rs`; Tab falls into the wildcard no-op arm in `main.rs`) leaves
`selected_folder` and `selected_favorite` untouched, so switching away
from a view and back restores its exact prior selection. -/
theorem view_switch_preserves_selection (s : AppState) :
    (guiStep s Key.tab).selected_folder = s.selected_folder ∧
    (guiStep s Key.tab).selected_favorite = s.selected_favorite ∧
    (guiStep s Key.keyH).selected_folder = s.selected_folder ∧
    (guiStep s Key.keyH).selected_favorite = s.selected_favorite ∧
    (guiStep s Key.keyFCap).selected_folder = s.selected_folder ∧
    (guiStep s Key.keyFCap).selected_favorite = s.selected_favorite ∧
    (mainStep s Key.keyH).map (fun p => (p.1.selected_folder, p.1.selected_favorite))
      = some (s.selected_folder, s.selected_favorite) ∧
    (mainStep s Key.keyFCap).map (fun p => (p.1.selected_folder, p.1.selected_favorite))
      = some (s.selected_folder, s.selected_favorite) ∧
    (mainStep s Key.tab).map (fun p => (p.1.selected_folder, p.1.selected_favorite))
      = some (s.selected_folder, s.selected_favorite) := by
  obtain ⟨fo, sf, hi, fa, sh, sfav, sel⟩ := s
  cases sh <;> cases sfav <;> simp [guiStep, mainStep]

/-- C9: with the History view active and the History list empty, the `f`
event of `main.rs` is a no-op: `history.get(..)` yields nothing, the
Favorites list is unchanged and nothing is sent to the store. -/
theorem promote_empty_history_noop (s : AppState) (hs : s.show_history = true)
    (hh : s.history = []) : mainStep s Key.keyFLow = some (s, []) := by
  simp [mainStep, hs, hh]

/-- Witness for C9 at a concrete state. -/
theorem promote_empty_history_noop_witness :
    (⟨[⟨"A", ["u"]⟩], 0, [], [⟨"t", "u"⟩], true, false, 0⟩ : AppState).show_history = true ∧
    (⟨[⟨"A", ["u"]⟩], 0, [], [⟨"t", "u"⟩], true, false, 0⟩ : AppState).history = [] ∧
    mainStep ⟨[⟨"A", ["u"]⟩], 0, [], [⟨"t", "u"⟩], true, false, 0⟩ Key.keyFLow
      = some (⟨[⟨"A", ["u"]⟩], 0, [], [⟨"t", "u"⟩], true, false, 0⟩, []) :=
  ⟨by decide, by decide, promote_empty_history_noop _ (by decide) (by decide)⟩

/-- C10 counterexample: with the Favorites view active over an empty
Favorites list, `j` makes the `main.rs` handler evaluate
`favorites.len() - 1` (underflow, embedded as `none`) while the `gui.rs`
handler is a well-defined no-op — the two handlers do not compute the
same update for every state. -/
theorem handlers_disagree_on_empty_favorites :
    mainStep ⟨[⟨"Z", []⟩], 0, [⟨"p", "q"⟩], [], false, true, 0⟩ Key.keyJ = none ∧
    guiStep ⟨[⟨"Z", []⟩], 0, [⟨"p", "q"⟩], [], false, true, 0⟩ Key.keyJ
      = ⟨[⟨"Z", []⟩], 0, [⟨"p", "q"⟩], [], false, true, 0⟩ := by
  constructor <;> decide

/-- C10 amended: the two handlers compute the same state update on
`k`/Up, `h` and `F` for every state, and on `j`/Down for every state
whose active list is non-empty; they differ only where `main.rs`
underflows on an empty active list. -/
theorem handlers_agree (s : AppState) :
    mainStep s Key.keyK = some (guiStep s Key.keyK, []) ∧
    mainStep s Key.keyUp = some (guiStep s Key.keyUp, []) ∧
    mainStep s Key.keyH = some (guiStep s Key.keyH, []) ∧
    mainStep s Key.keyFCap = some (guiStep s Key.keyFCap, []) ∧
    ((s.show_favorites = true → s.favorites ≠ []) →
      (s.show_favorites = false → s.show_history = false → s.folders ≠ []) →
      mainStep s Key.keyJ = some (guiStep s Key.keyJ, []) ∧
      mainStep s Key.keyDown = some (guiStep s Key.keyDown, [])) := by
  obtain ⟨fo, sf, hi, fa, sh, sfav, sel⟩ := s
  refine ⟨?_, ?_, ?_, ?_, ?_⟩
  · cases sh <;> cases sfav <;> simp [mainStep, guiStep] <;> split_ifs <;> simp
  · cases sh <;> cases sfav <;> simp [mainStep, guiStep] <;> split_ifs <;> simp
  · simp [mainStep, guiStep]
  · simp [mainStep, guiStep]
  · intro h1 h2
    cases sfav with
    | true =>
      have hfa : fa ≠ [] := h1 rfl
      cases fa with
      | nil => exact absurd rfl hfa
      | cons a as =>
        constructor <;> simp [mainStep, guiStep] <;> split_ifs <;> simp
    | false =>
      cases sh with
      | true => constructor <;> simp [mainStep, guiStep]
      | false =>
        have hfo : fo ≠ [] := h2 rfl rfl
        cases fo with
        | nil => exact absurd rfl hfo
        | cons a as =>
          constructor <;> simp [mainStep, guiStep] <;> split_ifs <;> simp

/-- Witness for the amended C10 at a concrete state with both lists
non-empty. -/
theorem handlers_agree_witness :
    mainStep ⟨[⟨"Z", ["u"]⟩], 0, [], [⟨"p", "q"⟩], false, false, 0⟩ Key.keyK
      = some (guiStep ⟨[⟨"Z", ["u"]⟩], 0, [], [⟨"p", "q"⟩], false, false, 0⟩ Key.keyK, []) ∧
    mainStep ⟨[⟨"Z", ["u"]⟩], 0, [], [⟨"p", "q"⟩], false, false, 0⟩ Key.keyJ
      = some (guiStep ⟨[⟨"Z", ["u"]⟩], 0, [], [⟨"p", "q"⟩], false, false, 0⟩ Key.keyJ, []) :=
  ⟨(handlers_agree _).1,
    ((handlers_agree _).2.2.2.2 (by decide) (by decide)).1⟩

lemma trimColons_append_colon (n : String) (h : endsWithColon n = false) :
    trimColons ⟨n.data ++ [':']⟩ = n := by
  obtain ⟨l⟩ := n
  simp only [endsWithColon, beq_eq_false_iff_ne, ne_eq] at h
  simp only [trimColons]
  congr 1
  rw [List.reverse_append]
  simp only [List.reverse_cons, List.reverse_nil, List.nil_append, List.singleton_append]
  rw [List.dropWhile_cons_of_pos (by simp)]
  cases hr : l.reverse with
  | nil => simpa using congrArg List.reverse hr
  | cons a as =>
    have ha : a ≠ ':' := by
      intro hcontra
      apply h
      rw [← List.head?_reverse, hr, hcontra]
      rfl
    rw [List.dropWhile_cons_of_neg (by simp [ha])]
    rw [← hr, List.reverse_reverse]

/-- C8: the config format of `load_folders_conf`.  A delimiter line
(ending in `':'`) flushes the current folder and opens a new one; the
new folder is named by the text before the `':'`; a non-blank
non-delimiter line is appended to the current folder's feeds; a blank
line is ignored; and the given two-folder file loads to exactly
"News" with one feed then "Music" with one feed (the final folder,
not followed by another delimiter, included). -/
theorem loadFoldersConf_format :
    (∀ (fs : List Folder) (cur : Folder) (line : String),
      endsWithColon line = true →
      confStep (fs, some cur) line = (fs ++ [cur], some ⟨trimColons line, []⟩)) ∧
    (∀ n : String, endsWithColon n = false → trimColons ⟨n.data ++ [':']⟩ = n) ∧
    (∀ (fs : List Folder) (cur : Folder) (line : String),
      endsWithColon line = false → isBlank line = false →
      confStep (fs, some cur) line = (fs, some ⟨cur.name, cur.feeds ++ [line]⟩)) ∧
    (∀ (fs : List Folder) (cur : Folder) (line : String),
      endsWithColon line = false → isBlank line = true →
      confStep (fs, some cur) line = (fs, some cur)) ∧
    loadFoldersConf ["News:", "http://a.example/feed", "Music:", "http://b.example/feed"]
      = [⟨"News", ["http://a.example/feed"]⟩, ⟨"Music", ["http://b.example/feed"]⟩] := by
  refine ⟨?_, trimColons_append_colon, ?_, ?_, by decide⟩
  · intro fs cur line h
    simp [confStep, h]
  · intro fs cur line h hb
    simp [confStep, h, hb]
  · intro fs cur line h hb
    simp [confStep, h, hb]

/-- Witness for C8's quantified conjuncts at concrete lines. -/
theorem loadFoldersConf_format_witness :
    endsWithColon "X:" = true ∧
    confStep ([], some ⟨"A", ["u0"]⟩) "X:"
      = ([⟨"A", ["u0"]⟩], some ⟨trimColons "X:", []⟩) ∧
    endsWithColon "News" = false ∧
    trimColons ⟨("News" : String).data ++ [':']⟩ = "News" ∧
    confStep ([], some ⟨"A", ["u0"]⟩) "http://x.example/f"
      = ([], some ⟨"A", ["u0", "http://x.example/f"]⟩) ∧
    confStep ([], some ⟨"A", ["u0"]⟩) "  " = ([], some ⟨"A", ["u0"]⟩) :=
  ⟨by decide,
    loadFoldersConf_format.1 [] ⟨"A", ["u0"]⟩ "X:" (by decide),
    by decide,
    loadFoldersConf_format.2.1 "News" (by decide),
    loadFoldersConf_format.2.2.1 [] ⟨"A", ["u0"]⟩ "http://x.example/f" (by decide) (by decide),
    loadFoldersConf_format.2.2.2.1 [] ⟨"A", ["u0"]⟩ "  " (by decide) (by decide)⟩

lemma fetchFolderFeeds_fst (fetch : String → Except FetchError Feed) :
    ∀ us : List String,
      (fetchFolderFeeds fetch us).1 = us.map (fun u => (u, fetchEpisodes (fetch u)))
  | [] => rfl
  | u :: us => by
    simp only [fetchFolderFeeds, List.map_cons]
    cases hf : fetch u <;>
      simp [hf, fetchEpisodes, fetchFolderFeeds_fst fetch us]

lemma fetchAll_fst (fetch : String → Except FetchError Feed) :
    ∀ fos : List Folder,
      (fetchAll fetch fos).1
        = fos.map (fun fo => (fo.name, fo.feeds.map (fun u => (u, fetchEpisodes (fetch u)))))
  | [] => rfl
  | fo :: fos => by
    simp only [fetchAll, List.map_cons]
    simp [fetchFolderFeeds_fst fetch fo.feeds, fetchAll_fst fetch fos]

/-- A demonstration fetcher: one URL succeeds with one episode, every
other URL fails with a network error. -/
def demoFetch : String → Except FetchError Feed := fun u =>
  if u = "http://ok.example/feed" then .ok ⟨u, [⟨"e1", "m1", "d1"⟩]⟩
  else .error .network

/-- C7: `fetch_all` consults the fetcher once per feed URL and each
feed's episode list depends only on its own fetch outcome — a failing
feed degrades to an empty episode list without touching any other feed
(first conjunct).  Concretely, over one valid and one unreachable URL
the valid feed has non-empty episodes, the unreachable one an empty
list, and the only diagnostic names the unreachable URL; `fetchAll` is a
total function, so the load finishes without a fatal error. -/
theorem fetchAll_isolates_failures :
    (∀ (fetch : String → Except FetchError Feed) (fos : List Folder),
      (fetchAll fetch fos).1
        = fos.map (fun fo => (fo.name, fo.feeds.map (fun u => (u, fetchEpisodes (fetch u)))))) ∧
    (fetchAll demoFetch [⟨"News", ["http://ok.example/feed", "http://down.example/feed"]⟩]).1
      = [("News", [("http://ok.example/feed", [⟨"e1", "m1", "d1"⟩]),
          ("http://down.example/feed", [])])] ∧
    (fetchAll demoFetch [⟨"News", ["http://ok.example/feed", "http://down.example/feed"]⟩]).2
      = [("http://down.example/feed", FetchError.network)] :=
  ⟨fetchAll_fst, by decide, by decide⟩

lemma scrollStep_inv (len h : Nat) (hh : 0 < h) (st : ScrollView) (e : MoveEv)
    (hinv : ScrollInv len h st) : ScrollInv len h (scrollStep len h st e) := by
  obtain ⟨i1, i2, i3⟩ := hinv
  cases e <;>
    simp only [scrollStep, ScrollInv] <;>
    refine ⟨fun h0 => ?_, fun hpos => ?_, fun hle => ?_⟩ <;>
    split_ifs <;>
    simp_all <;>
    omega

lemma runScroll_inv (len h : Nat) (hh : 0 < h) (evs : List MoveEv) :
    ScrollInv len h (runScroll len h evs) := by
  have init : ScrollInv len h ⟨0, 0⟩ := by
    refine ⟨fun _ => ⟨rfl, rfl⟩, fun hpos => ⟨hpos, Nat.le_refl _, by simpa using hh⟩, fun _ => rfl⟩
  rw [runScroll]
  generalize hst : (⟨0, 0⟩ : ScrollView) = st at init
  clear hst
  induction evs generalizing st with
  | nil => exact init
  | cons e evs ih => exact ih (scrollStep len h st e) (scrollStep_inv len h hh st e init)

/-- C5 (modelled from the spec, since `src/` has no scroll state): after
any sequence of MoveDown/MoveUp events from `(0, 0)`, a list that is
shorter than the window never scrolls; a list longer than the window
keeps the selection inside `[off, off + h - 1]`; and every single event
moves the offset by at most one step. -/
theorem scroll_window_invariant (len h : Nat) (hh : 0 < h) (evs : List MoveEv) :
    (len < h → (runScroll len h evs).off = 0) ∧
    (h < len →
      (runScroll len h evs).off ≤ (runScroll len h evs).sel ∧
      (runScroll len h evs).sel ≤ (runScroll len h evs).off + h - 1) ∧
    (∀ (st : ScrollView) (e : MoveEv),
      (scrollStep len h st e).off ≤ st.off + 1 ∧
      st.off ≤ (scrollStep len h st e).off + 1) := by
  obtain ⟨i1, i2, i3⟩ := runScroll_inv len h hh evs
  refine ⟨fun hlt => i3 (Nat.le_of_lt hlt), fun hgt => ?_, fun st e => ?_⟩
  · obtain ⟨_, hos, hsw⟩ := i2 (Nat.lt_trans hh hgt)
    exact ⟨hos, by omega⟩
  · cases e <;> simp only [scrollStep] <;> split_ifs <;> omega

/-- Witness for C5 with window height 2 and list length 5 after three
MoveDown events. -/
theorem scroll_window_invariant_witness :
    (0 : Nat) < 2 ∧ (2 : Nat) < 5 ∧
    (runScroll 5 2 [MoveEv.down, MoveEv.down, MoveEv.down]).off
      ≤ (runScroll 5 2 [MoveEv.down, MoveEv.down, MoveEv.down]).sel ∧
    (runScroll 5 2 [MoveEv.down, MoveEv.down, MoveEv.down]).sel
      ≤ (runScroll 5 2 [MoveEv.down, MoveEv.down, MoveEv.down]).off + 2 - 1 ∧
    (scrollStep 5 2 ⟨3, 2⟩ MoveEv.down).off ≤ 2 + 1 :=
  ⟨by decide, by decide,
    ((scroll_window_invariant 5 2 (by decide)
      [MoveEv.down, MoveEv.down, MoveEv.down]).2.1 (by decide)).1,
    ((scroll_window_invariant 5 2 (by decide)
      [MoveEv.down, MoveEv.down, MoveEv.down]).2.1 (by decide)).2,
    ((scroll_window_invariant 5 2 (by decide)
      [MoveEv.down, MoveEv.down, MoveEv.down]).2.2 ⟨3, 2⟩ MoveEv.down).1⟩
